import Mathlib

/-!
Verification of the asynchronous Backbone validation engine
(src/async.backbone.validation.js).

The engine is embedded shallowly:

* JavaScript values flowing through validation are modelled by `JsValue`;
  plain objects are association lists with JS-object assignment semantics
  (`objSet`: replace in place, append fresh keys at the end).
* Every built-in validator settles its step synchronously in the source, so
  the hand-rolled deferred chains (`invokeValidator` inside `validateAttr`,
  `invokeModel` inside `validateModel`) collapse to sequential recursion:
  a step outcome is `VOutcome` (`resolve` / `reject message` / `vthrow`,
  the last one modelling a synchronous exception that the try/catch at
  lines 179-193 converts into a rejection).
* A rejected attribute chain carries `validator.msg` (line 172), which is the
  declaration's `msg` key and may be `undefined`; this is modelled as
  `Option String`.
* Numbers are `Rat` (the source only ever compares and renders decimal
  literals in the modelled scenarios); `jsToNumber` is the restriction of
  JS `ToNumber` to decimal literals, which is the only form the built-in
  `number` pattern admits.
* The built-in `email`/`url` regular expressions are external pattern
  constants (spec §1 places their internals out of scope); a pattern that is
  not `digits`/`number` is modelled by `PatParam.otherP` carrying its
  matching function as an oracle.
-/

set_option autoImplicit false

mutual
/-- A JavaScript value as seen by the validation engine.  `vobj` is a nested
plain object (recursed into by `flatten`); `vatomic` stands for
Date/RegExp/Backbone.Model/Backbone.Collection instances, which `flatten`
(lines 61-66) treats as leaves; the `Nat` is the object identity used by
strict equality. -/
inductive JsValue where
  | vnull
  | vundef
  | vstr (s : String)
  | vnum (q : Rat)
  | vbool (b : Bool)
  | vobj (fields : JsFields)
  | vatomic (id : Nat)
deriving DecidableEq

/-- The properties of a nested plain object, in key order (the same data as
a `List (String × JsValue)`, kept mutual with `JsValue`). -/
inductive JsFields where
  | fnil
  | fcons (key : String) (val : JsValue) (rest : JsFields)
deriving DecidableEq
end

/-- A JavaScript plain object holding `α`-valued properties, in key order. -/
abbrev JsObj (α : Type) : Type := List (String × α)

/-- JS property assignment `o[k] = v`: an existing key keeps its position and
gets the new value; a fresh key is appended. -/
def objSet {α : Type} : JsObj α → String → α → JsObj α
  | [], k, v => [(k, v)]
  | (k2, v2) :: rest, k, v =>
    if k2 == k then (k2, v) :: rest else (k2, v2) :: objSet rest k v

/-- JS property read `o[k]`, `none` when the key is absent (i.e. `undefined`). -/
def objLookup {α : Type} : JsObj α → String → Option α
  | [], _ => none
  | (k2, v2) :: rest, k => if k2 == k then some v2 else objLookup rest k

/-- `o.hasOwnProperty(k)` for the objects the engine builds. -/
def objHasKey {α : Type} (o : JsObj α) (k : String) : Bool :=
  o.any (fun kv => kv.1 == k)

/-- `_.extend(target, src)`: assign every property of `src` onto `target`. -/
def objExtend {α : Type} (target src : JsObj α) : JsObj α :=
  src.foldl (fun t kv => objSet t kv.1 kv.2) target

mutual
/-- The recursive branch of the `flatten` helper (lines 55-76) over a nested
object's properties: each property is flattened in order into `into`. -/
def flattenFields (pre : String) (into : JsObj JsValue) :
    JsFields → JsObj JsValue
  | .fnil => into
  | .fcons key val rest => flattenFields pre (flattenEntry pre into key val) rest

/-- One property of `flatten` (lines 59-72): a plain object recurses with an
extended prefix; every other value (including `null`, dates, patterns,
referenced entities/collections) is assigned as a leaf at its dotted path. -/
def flattenEntry (pre : String) (into : JsObj JsValue) (key : String) :
    JsValue → JsObj JsValue
  | .vobj fields => flattenFields (pre ++ key ++ ".") into fields
  | v => objSet into (pre ++ key) v
end

/-- `flatten` over a top-level attributes object (held as a `JsObj`). -/
def flattenL (pre : String) (into : JsObj JsValue) :
    List (String × JsValue) → JsObj JsValue
  | [] => into
  | (key, val) :: rest => flattenL pre (flattenEntry pre into key val) rest

/-- `flatten(obj)` with the default accumulator and empty prefix. -/
def flattenTop (attrs : List (String × JsValue)) : JsObj JsValue :=
  flattenL "" [] attrs

/-- `\w` of the label-formatting regular expression. -/
def isWordCharJs (c : Char) : Bool := c.isAlpha || c.isDigit || c == '_'

/-- One pass of `attrName.replace(/(?:^\w|[A-Z]|\b\w)/g, ...)` (line 564):
`atStart` is true at index 0, `prev` is the previous character of the
original string.  A match at index 0 is uppercased; any later match becomes
a space followed by its lowercase form. -/
def sentenceCaseScan : Bool → Option Char → List Char → List Char
  | _, _, [] => []
  | atStart, prev, c :: rest =>
    let boundary := match prev with
      | some p => !isWordCharJs p && isWordCharJs c
      | none => false
    let isMatch := (atStart && isWordCharJs c) || c.isUpper || boundary
    let out :=
      if isMatch then (if atStart then [c.toUpper] else [' ', c.toLower])
      else [c]
    out ++ sentenceCaseScan false (some c) rest

/-- `.replace('_', ' ')` with a string argument replaces only the first
occurrence (line 566). -/
def replaceFirstUnderscore : List Char → List Char
  | [] => []
  | c :: rest => if c == '_' then ' ' :: rest else c :: replaceFirstUnderscore rest

/-- `defaultLabelFormatters.sentenceCase` (lines 563-567). -/
def sentenceCase (attrName : String) : String :=
  String.mk (replaceFirstUnderscore (sentenceCaseScan true none attrName.data))

/-- Digit run to a natural number (the placeholder index of `{n}`). -/
def digitsToNat (ds : List Char) : Nat :=
  ds.foldl (fun n c => 10 * n + (c.toNat - 48)) 0

/-- Single-pass scanner for `text.replace(/\x7b(\d+)\x7d/g, ...)`
(lines 30-36).  The state is `none` outside a candidate placeholder and
`some acc` after an opening brace, `acc` holding the digits read so far
(reversed).  On `\x7d` with at least one digit the placeholder is replaced
by `args[n]` when that argument exists, otherwise the matched text is kept.
On any other character the candidate fails and its text is emitted
literally; since only a brace can start a new candidate, emitting the
failed candidate and continuing (with a fresh candidate exactly when the
offending character is itself an opening brace) scans the same matches as
the regex engine. -/
def formatGo (args : List String) : Option (List Char) → List Char → List Char
  | none, [] => []
  | some acc, [] => '\x7b' :: acc.reverse
  | none, c :: rest =>
    if c == '\x7b' then formatGo args (some []) rest
    else c :: formatGo args none rest
  | some acc, c :: rest =>
    if c.isDigit then formatGo args (some (c :: acc)) rest
    else if c == '\x7d' && !acc.isEmpty then
      match args.get? (digitsToNat acc.reverse) with
      | some s => s.data ++ formatGo args none rest
      | none => '\x7b' :: (acc.reverse ++ '\x7d' :: formatGo args none rest)
    else if c == '\x7b' then
      ('\x7b' :: acc.reverse) ++ formatGo args (some []) rest
    else
      ('\x7b' :: acc.reverse) ++ (c :: formatGo args none rest)

/-- `formatFunctions.format` (lines 30-36): positional placeholder
substitution. -/
def format (text : String) (args : List String) : String :=
  String.mk (formatGo args none text.data)

/-- Leading-whitespace removal on a character list. -/
def dropWs : List Char → List Char
  | [] => []
  | c :: rest => if c.isWhitespace then dropWs rest else c :: rest

/-- JS `String.prototype.trim`: whitespace stripped from both ends. -/
def trimString (s : String) : String :=
  String.mk ((dropWs (dropWs s.data.reverse).reverse))

/-- `allDigits` for regex fragments `\d+` / `\d{3}` checks. -/
def allDigits (l : List Char) : Bool := l.all Char.isDigit

/-- The `(?:,\d{3})*` tail of the built-in `number` pattern: zero or more
groups of a comma followed by exactly three digits. -/
def commaGroups : List Char → Bool
  | [] => true
  | c :: a :: b :: d :: rest =>
    c == ',' && a.isDigit && b.isDigit && d.isDigit && commaGroups rest
  | _ => false

/-- Integer part of the `number` pattern: `\d+` or `\d{1,3}(?:,\d{3})+`. -/
def intPartOk (l : List Char) : Bool :=
  (!l.isEmpty && allDigits l) ||
  (let sp := l.span Char.isDigit
   decide (1 ≤ sp.1.length) && decide (sp.1.length ≤ 3) &&
     !sp.2.isEmpty && commaGroups sp.2)

/-- The built-in `number` pattern `^-?(?:\d+|\d{1,3}(?:,\d{3})+)(?:\.\d+)?$`
(line 514). -/
def matchesNumberPattern (s : String) : Bool :=
  let cs := match s.data with
    | '-' :: rest => rest
    | other => other
  match cs.span (fun c => !(c == '.')) with
  | (ip, []) => intPartOk ip
  | (ip, _ :: frac) => intPartOk ip && !frac.isEmpty && allDigits frac

/-- The built-in `digits` pattern `^\d+$` (line 511). -/
def matchesDigitsPattern (s : String) : Bool :=
  !s.data.isEmpty && allDigits s.data

/-- JS `ToNumber` restricted to the trimmed decimal literals that can reach a
numeric comparison in the engine (the `number` pattern admits nothing else
except comma-grouped forms, which `ToNumber` maps to `NaN`, i.e. `none`).
Hexadecimal and exponent forms are outside the modelled value space. -/
def jsToNumber (s : String) : Option Rat :=
  let t := trimString s
  if t == "" then some 0
  else
    let cs := t.data
    let signed : Rat × List Char := match cs with
      | '-' :: rest => (-1, rest)
      | '+' :: rest => (1, rest)
      | other => (1, other)
    match signed.2.span Char.isDigit with
    | (ip, []) =>
      if ip.isEmpty then none else some (signed.1 * (digitsToNat ip : Rat))
    | (ip, '.' :: frac) =>
      if !allDigits frac then none
      else if ip.isEmpty && frac.isEmpty then none
      else some (signed.1 *
        ((digitsToNat ip : Rat) + (digitsToNat frac : Rat) / ((10 : Rat) ^ frac.length)))
    | _ => none

/-- Rendering of a number as a string (template arguments, `trim.call`).
Integral values render exactly as in JS; no modelled scenario renders a
non-integral value, shown as `num/den` here. -/
def ratToString (q : Rat) : String :=
  if q.den == 1 then toString q.num
  else toString q.num ++ "/" ++ toString q.den

/-- JS `toString` on the values the engine stringifies. -/
def jsToString : JsValue → String
  | .vstr s => s
  | .vnum q => ratToString q
  | .vbool b => if b then "true" else "false"
  | .vnull => "null"
  | .vundef => "undefined"
  | .vobj _ => "[object Object]"
  | .vatomic _ => "[object Object]"

/-- The `trim` helper (lines 593-596): `null` becomes the empty string,
anything else is stringified and trimmed.  Only reached on values passing
`hasValue`, so `undefined` (which would fault) never arrives here. -/
def trimJs : JsValue → String
  | .vnull => ""
  | v => trimString (jsToString v)

/-- `hasValue` (lines 610-612): `null`, `undefined` and blank-after-trimming
strings are empty. -/
def hasValue (v : JsValue) : Bool :=
  match v with
  | .vnull => false
  | .vundef => false
  | .vstr s => !(trimString s == "")
  | _ => true

/-- `isNumber` (lines 605-607): a native number, or a string matching the
built-in `number` pattern. -/
def isNumber (v : JsValue) : Bool :=
  match v with
  | .vnum _ => true
  | .vstr s => matchesNumberPattern s
  | _ => false

/-- `value < bound` as evaluated by `min`/`range`; only reached after
`isNumber`, so only numbers and numeric strings matter (a comma-grouped
string converts to `NaN` and every comparison with `NaN` is false). -/
def ltNum (v : JsValue) (bound : Rat) : Bool :=
  match v with
  | .vnum r => decide (r < bound)
  | .vstr s =>
    match jsToNumber s with
    | some r => decide (r < bound)
    | none => false
  | _ => false

/-- `value > bound` as evaluated by `max`/`range`. -/
def gtNum (v : JsValue) (bound : Rat) : Bool :=
  match v with
  | .vnum r => decide (bound < r)
  | .vstr s =>
    match jsToNumber s with
    | some r => decide (bound < r)
    | none => false
  | _ => false

/-- JS strict equality `===` on the values the engine compares.  Plain
objects never reach a comparison (flattened leaves are not plain objects);
distinct `vatomic` identities model distinct references. -/
def jsStrictEq : JsValue → JsValue → Bool
  | .vnull, .vnull => true
  | .vundef, .vundef => true
  | .vstr a, .vstr b => a == b
  | .vnum a, .vnum b => decide (a = b)
  | .vbool a, .vbool b => a == b
  | .vatomic i, .vatomic j => i == j
  | _, _ => false

/-- `_.isBoolean`. -/
def isBooleanJs : JsValue → Bool
  | .vbool _ => true
  | _ => false

/-- `Validation.messages` (lines 529-542). -/
structure MessagesTable where
  required : String
  acceptance : String
  min : String
  max : String
  range : String
  length : String
  minLength : String
  maxLength : String
  rangeLength : String
  oneOf : String
  equalTo : String
  pattern : String

/-- The default error message templates. -/
def defaultMessages : MessagesTable :=
  { required := "\x7b0\x7d is required"
    acceptance := "\x7b0\x7d must be accepted"
    min := "\x7b0\x7d must be greater than or equal to \x7b1\x7d"
    max := "\x7b0\x7d must be less than or equal to \x7b1\x7d"
    range := "\x7b0\x7d must be between \x7b1\x7d and \x7b2\x7d"
    length := "\x7b0\x7d must be \x7b1\x7d characters"
    minLength := "\x7b0\x7d must be at least \x7b1\x7d characters"
    maxLength := "\x7b0\x7d must be at most \x7b1\x7d characters"
    rangeLength := "\x7b0\x7d must be between \x7b1\x7d and \x7b2\x7d characters"
    oneOf := "\x7b0\x7d must be one of: \x7b1\x7d"
    equalTo := "\x7b0\x7d must be the same as \x7b1\x7d"
    pattern := "\x7b0\x7d must be a valid \x7b1\x7d" }

/-- Outcome of one validator function call: it settles its step deferred
(`resolve` / `reject message`) or raises a synchronous exception (`vthrow`),
which the try/catch at lines 179-193 intercepts. -/
inductive VOutcome where
  | resolve
  | reject (message : String)
  | vthrow
deriving DecidableEq

/-- A custom validation function (the `fn` validator, lines 617-622),
invoked with the value, the attribute name and the computed attribute set
and settling its step deferred; the model receiver itself is not part of the
modelled signature. -/
def CustomFn : Type := JsValue → String → JsObj JsValue → VOutcome

/-- Parameter of the `required` validator: a boolean, or a dynamic predicate
of (value, attr, computed) (line 627). -/
inductive ReqParam where
  | rBool (b : Bool)
  | rFun (f : JsValue → String → JsObj JsValue → Bool)

/-- Parameter of the `pattern` validator: one of the built-in pattern names
modelled concretely, or any other pattern (the built-in `email`/`url`
constants or a raw regular expression) given by its matching function. -/
inductive PatParam where
  | digitsP
  | numberP
  | otherP (matcher : String → Bool)

/-- Parameter of the `fn` validator: a function value or the name of a model
method (lines 618-620). -/
inductive FnParam where
  | fnFunc (f : CustomFn)
  | fnName (s : String)

/-- One validator key of a rule declaration with its parameter.  `unknown`
is a key that is not a property of `defaultValidators`, so the lookup at
line 117 yields `undefined` and invoking it faults. -/
inductive VDecl where
  | required (p : ReqParam)
  | acceptance (accept : JsValue)
  | min (bound : Rat)
  | max (bound : Rat)
  | range (lo hi : Rat)
  | length (n : Nat)
  | minLength (n : Nat)
  | maxLength (n : Nat)
  | rangeLength (lo hi : Nat)
  | oneOf (values : List JsValue)
  | equalTo (other : String)
  | pattern (p : PatParam)
  | fn (p : FnParam)
  | unknown (name : String)

/-- A normalized validator descriptor (lines 114-123): the validator to call
with its parameter, plus the declaration's shared `msg` key (`none` when the
declaration has no custom message, i.e. `undefined`). -/
structure Descriptor where
  decl : VDecl
  msg : Option String

/-- One rule mapping of a declaration: its validator keys in declaration
order (everything except the reserved `msg` key) and the optional shared
message. -/
structure RuleObj where
  rules : List VDecl
  msg : Option String

/-- A per-attribute rule declaration: a single function, a string naming a
model method, one mapping, or an array of mappings (lines 96-109). -/
inductive AttrValidationSet where
  | avFn (f : CustomFn)
  | avStr (s : String)
  | avObj (r : RuleObj)
  | avArr (l : List RuleObj)

/-- The validated entity: its attribute tree, its `validation` rule
declaration, its methods (for string `fn` parameters) and the `_isValid`
flag the mixin maintains. -/
structure Model where
  attributes : JsObj JsValue
  validation : JsObj AttrValidationSet
  methods : JsObj CustomFn
  isValidState : Bool

/-- `formatFunctions.formatLabel` (lines 24-26) under the default
configuration: `defaultOptions.labelFormatter` is `'sentenceCase'`
(line 11); `configure` is not modelled, and `sentenceCase` ignores the
model. -/
def formatLabel (attrName : String) (_m : Model) : String :=
  sentenceCase attrName

/-- Matching a pattern parameter against the stringified value. -/
def patMatches (p : PatParam) (s : String) : Bool :=
  match p with
  | .digitsP => matchesDigitsPattern s
  | .numberP => matchesNumberPattern s
  | .otherP f => f s

/-- The text the `pattern` message interpolates for its parameter: the
pattern name for named patterns; a raw pattern object stringifies to its
source text, not modelled beyond a placeholder. -/
def patParamText (p : PatParam) : String :=
  match p with
  | .digitsP => "digits"
  | .numberP => "number"
  | .otherP _ => "[pattern]"

/-- Evaluation of the `required` parameter (line 627): a function parameter
is called with (value, attr, computed), anything else is used directly. -/
def evalRequired (p : ReqParam) (value : JsValue) (attr : String)
    (computed : JsObj JsValue) : Bool :=
  match p with
  | .rBool b => b
  | .rFun f => f value attr computed

/-- One call of `validator.fn.call(ctx, result, value, attr, validator.val,
model, computed)` (line 184), per built-in validator (lines 614-748).
An `unknown` kind is an `undefined` function and faults; a string `fn`
parameter naming a missing model method likewise faults when called. -/
def invokeDecl (m : Model) (value : JsValue) (attr : String)
    (computed : JsObj JsValue) : VDecl → VOutcome
  | .required p =>
    let isRequired := evalRequired p value attr computed
    if !isRequired && !hasValue value then .resolve
    else if isRequired && !hasValue value then
      .reject (format defaultMessages.required [formatLabel attr m])
    else .resolve
  | .acceptance _ =>
    if !jsStrictEq value (.vstr "true") &&
        (!isBooleanJs value || jsStrictEq value (.vbool false)) then
      .reject (format defaultMessages.acceptance [formatLabel attr m])
    else .resolve
  | .min bound =>
    if !isNumber value || ltNum value bound then
      .reject (format defaultMessages.min [formatLabel attr m, ratToString bound])
    else .resolve
  | .max bound =>
    if !isNumber value || gtNum value bound then
      .reject (format defaultMessages.max [formatLabel attr m, ratToString bound])
    else .resolve
  | .range lo hi =>
    if !isNumber value || ltNum value lo || gtNum value hi then
      .reject (format defaultMessages.range
        [formatLabel attr m, ratToString lo, ratToString hi])
    else .resolve
  | .length n =>
    if !hasValue value || !((trimJs value).length == n) then
      .reject (format defaultMessages.length [formatLabel attr m, toString n])
    else .resolve
  | .minLength n =>
    if !hasValue value || decide ((trimJs value).length < n) then
      .reject (format defaultMessages.minLength [formatLabel attr m, toString n])
    else .resolve
  | .maxLength n =>
    if !hasValue value || decide (n < (trimJs value).length) then
      .reject (format defaultMessages.maxLength [formatLabel attr m, toString n])
    else .resolve
  | .rangeLength lo hi =>
    if !hasValue value || decide ((trimJs value).length < lo) ||
        decide (hi < (trimJs value).length) then
      .reject (format defaultMessages.rangeLength
        [formatLabel attr m, toString lo, toString hi])
    else .resolve
  | .oneOf values =>
    if !values.any (fun x => jsStrictEq x value) then
      .reject (format defaultMessages.oneOf
        [formatLabel attr m, String.intercalate ", " (values.map jsToString)])
    else .resolve
  | .equalTo other =>
    if !jsStrictEq value ((objLookup computed other).getD .vundef) then
      .reject (format defaultMessages.equalTo
        [formatLabel attr m, formatLabel other m])
    else .resolve
  | .pattern p =>
    if !hasValue value || !patMatches p (jsToString value) then
      .reject (format defaultMessages.pattern [formatLabel attr m, patParamText p])
    else .resolve
  | .fn p =>
    match p with
    | .fnFunc f => f value attr computed
    | .fnName s =>
      match objLookup m.methods s with
      | some f => f value attr computed
      | none => .vthrow
  | .unknown _ => .vthrow

/-- `invokeValidator`'s call of one descriptor (lines 179-193 wrap it in
try/catch). -/
def invokeDescriptor (m : Model) (attr : String) (value : JsValue)
    (computed : JsObj JsValue) (d : Descriptor) : VOutcome :=
  invokeDecl m value attr computed d.decl

/-- Outcome of an attribute chain: the master deferred either resolves or
rejects.  The rejection payload is `validator.msg` (line 172) — the
declaration's custom message or `undefined` — not the message the failing
validator computed. -/
inductive AttrOutcome where
  | pass
  | fail (msg : Option String)
deriving DecidableEq

/-- The chain driven by `invokeValidator` (lines 137-198): each resolving
step shifts and invokes the next descriptor; a rejecting step rejects the
master deferred with `validator.msg`; a synchronous fault is caught and
likewise rejects the master deferred with `validator.msg`. -/
def runChain (m : Model) (attr : String) (value : JsValue)
    (computed : JsObj JsValue) : List Descriptor → AttrOutcome
  | [] => .pass
  | d :: rest =>
    match invokeDescriptor m attr value computed d with
    | .resolve => runChain m attr value computed rest
    | .reject _ => .fail d.msg
    | .vthrow => .fail d.msg

/-- Instrumented copy of `runChain` that also records, in order, every
descriptor handed to `invokeValidator`; it agrees with `runChain`
(`runChain_eq_trace`). -/
def runChainTrace (m : Model) (attr : String) (value : JsValue)
    (computed : JsObj JsValue) : List Descriptor → AttrOutcome × List Descriptor
  | [] => (.pass, [])
  | d :: rest =>
    match invokeDescriptor m attr value computed d with
    | .resolve =>
      let tail := runChainTrace m attr value computed rest
      (tail.1, d :: tail.2)
    | .reject _ => (.fail d.msg, [d])
    | .vthrow => (.fail d.msg, [d])

/-- Descriptors contributed by one rule mapping (lines 114-123): every
non-`msg` key in order, each paired with the mapping's shared message. -/
def ruleObjDescriptors (r : RuleObj) : List Descriptor :=
  r.rules.map (fun decl => { decl := decl, msg := r.msg })

/-- Normalization of a declaration into a list of rule mappings
(lines 99-109): functions and strings are wrapped as an `fn` rule, a single
mapping becomes a one-element array. -/
def normalizeValidationSet : AttrValidationSet → List RuleObj
  | .avFn f => [{ rules := [.fn (.fnFunc f)], msg := none }]
  | .avStr s => [{ rules := [.fn (.fnName s)], msg := none }]
  | .avObj r => [r]
  | .avArr l => l

/-- `getValidators(model, attr)` (lines 96-124). -/
def getValidators (m : Model) (attr : String) : List Descriptor :=
  match objLookup m.validation attr with
  | none => []
  | some s => (normalizeValidationSet s).flatMap ruleObjDescriptors

/-- `validateAttr` (lines 130-205) with all built-ins settling
synchronously: an empty validator list resolves the master deferred at
once, otherwise the chain decides. -/
def validateAttr (m : Model) (attr : String) (value : JsValue)
    (computed : JsObj JsValue) : AttrOutcome :=
  let validators := getValidators m attr
  if validators.isEmpty then .pass
  else runChain m attr value computed validators

/-- Settlement value of `validateModel` (lines 253-256 / 282-285): the
invalid-attribute map (values may be `undefined`) and the validity flag. -/
structure RunResult where
  invalidAttrs : JsObj (Option String)
  isValid : Bool
deriving DecidableEq

/-- The entity chain `invokeModel` (lines 224-292): one attribute chain per
flattened pair, in order; a rejection records `errorMessage` — the payload
of the attribute chain's rejection — under the attribute and clears the
validity flag, and the next pair is processed either way; the master
deferred resolves once the queue is empty. -/
def invokeModel (m : Model) (computed : JsObj JsValue) :
    String × JsValue → List (String × JsValue) → JsObj (Option String) →
    Bool → RunResult
  | (attr, value), pairs, invalidAttrs, isValid =>
    match validateAttr m attr value computed with
    | .pass =>
      match pairs with
      | [] => { invalidAttrs := invalidAttrs, isValid := isValid }
      | nextPair :: rest => invokeModel m computed nextPair rest invalidAttrs isValid
    | .fail errorMessage =>
      let invalidAttrs2 := objSet invalidAttrs attr errorMessage
      match pairs with
      | [] => { invalidAttrs := invalidAttrs2, isValid := false }
      | nextPair :: rest => invokeModel m computed nextPair rest invalidAttrs2 false

/-- `validateModel(model, attrs)` (lines 211-297).  `computed` is
`_.clone(attrs)` — a shallow copy with the same contents.  When the
flattened pair list is empty, `invokeModel(pairs.shift())` dereferences
`undefined` (`pair[0]`, line 225) and the call raises a synchronous
TypeError instead of settling: modelled as `none`. -/
def validateModel (m : Model) (attrs : JsObj JsValue) : Option RunResult :=
  let computed := attrs
  let pairs := flattenTop attrs
  match pairs with
  | [] => none
  | p :: rest => some (invokeModel m computed p rest [] true)

/-- `getValidatedAttrs(model)` (lines 86-91): every attribute with a rule
declaration, mapped to `undefined`. -/
def getValidatedAttrs (m : Model) : JsObj JsValue :=
  m.validation.foldl (fun memo kv => objSet memo kv.1 JsValue.vundef) []

/-- `allAttrs` of `mixin.validate` (line 337):
`_.extend({}, validatedAttrs, model.attributes, attrs)`. -/
def allAttrsFor (m : Model) (attrs : Option (JsObj JsValue)) : JsObj JsValue :=
  objExtend (objExtend (getValidatedAttrs m) m.attributes) (attrs.getD [])

/-- The options object reaching `validate` after
`_.extend({}, options, setOptions)` (line 335); only the `forceUpdate`
flag influences the modelled control flow (`selector` and the callback
implementations are external). -/
structure Options where
  forceUpdate : Bool

/-- State of the deferred returned by `validate()` once `validateModel`
settles: resolved, rejected, or pending forever (the then-handler returned
the invalid-attribute map early at line 378 and never settles it). -/
inductive DeferredOutcome where
  | resolvedD
  | rejectedD
  | pendingD
deriving DecidableEq

/-- Observable effects of one `mixin.validate` run: the valid callbacks
fired (lines 348-353), the invalid callbacks fired with their messages
(lines 357-364), what the then-handler returned into the internal promise
chain (line 378), the settlement of the deferred handed to the caller
(lines 381-385), and the updated `model._isValid` (line 344). -/
structure ValidateOut where
  validCalls : List String
  invalidCalls : List (String × Option String)
  handlerReturn : Option (JsObj (Option String))
  outcome : DeferredOutcome
  newIsValid : Bool
deriving DecidableEq

/-- `mixin.validate(attrs, setOptions)` (lines 332-392).  A synchronous
fault from `validateModel` (empty flattened set) propagates to the caller:
`none`.  Otherwise the then-handler records `_isValid`, fires the valid
callbacks for validated attributes that are not in the invalid map, fires
the invalid callbacks for invalid validated attributes that changed (or
always, when validating the whole model), then either returns the invalid
map early — leaving the deferred pending — or settles the deferred by
`model._isValid`. -/
def mixinValidate (model : Model) (attrs : Option (JsObj JsValue))
    (opt : Options) : Option ValidateOut :=
  let validateAll := attrs.isNone
  let validatedAttrs := getValidatedAttrs model
  let allAttrs := allAttrsFor model attrs
  let changedAttrs := flattenTop (attrs.getD allAttrs)
  match validateModel model allAttrs with
  | none => none
  | some result =>
    let newIsValid := result.isValid
    let validCalls := (validatedAttrs.map Prod.fst).filter
      (fun attr => !objHasKey result.invalidAttrs attr)
    let invalidCalls := (validatedAttrs.map Prod.fst).filterMap (fun attr =>
      if objHasKey result.invalidAttrs attr &&
          (objHasKey changedAttrs attr || validateAll) then
        some (attr, (objLookup result.invalidAttrs attr).getD none)
      else none)
    if !opt.forceUpdate &&
        (result.invalidAttrs.map Prod.fst).any (fun k => objHasKey changedAttrs k) then
      some { validCalls := validCalls, invalidCalls := invalidCalls,
             handlerReturn := some result.invalidAttrs,
             outcome := .pendingD, newIsValid := newIsValid }
    else
      some { validCalls := validCalls, invalidCalls := invalidCalls,
             handlerReturn := none,
             outcome := if newIsValid then .resolvedD else .rejectedD,
             newIsValid := newIsValid }

/-- The model after one `validate()` run: the only entity state the run
writes is `_isValid` (line 344); a run that faulted wrote nothing. -/
def modelAfterValidate (m : Model) (attrs : Option (JsObj JsValue))
    (opt : Options) : Model :=
  match mixinValidate m attrs opt with
  | some out => { m with isValidState := out.newIsValid }
  | none => m

/-- A synchronous JavaScript fault surfacing to the caller. -/
inductive JsFault where
  | typeError
deriving DecidableEq

/-- `getValidators` as reached from `mixin.isValid` (line 316): the call
`validateAttr(this, option, flattened[option], _.extend({}, this.attributes))`
supplies only four arguments to the five-parameter `validateAttr`, so the
`model` parameter receives the attribute-path string and the `attr`
parameter receives the looked-up value.  A string has no `validation`
property (line 97), hence no validators. -/
def getValidatorsOfString (_s : String) (_attr : JsValue) : List Descriptor :=
  []

/-- `masterDeferred.resolve()` (line 135) when `masterDeferred` is the model
itself: the mixin installs `validate`/`preValidate`/`isValid` but no
`resolve`, so the call is a TypeError. -/
def modelResolve (_m : Model) : Except JsFault Unit :=
  .error .typeError

/-- The body of `validateAttr` as executed by `isValid`'s shifted call: the
(empty) validator list short-circuits to `masterDeferred.resolve()`, which
faults on the model; were the fault absent, the branch would return
`!masterDeferred.promise()`, the negation of a truthy promise object. -/
def isValidStringBranch (m : Model) (option : String) : Except JsFault Bool :=
  let validators := getValidatorsOfString option
    ((objLookup (flattenTop m.attributes) option).getD .vundef)
  if validators.isEmpty then
    match modelResolve m with
    | .error e => .error e
    | .ok _ => .ok false
  else
    .error .typeError

/-- The list branch of `mixin.isValid` (lines 318-322): `_.reduce` with
`memo && !validateAttr(...)`; `&&` short-circuits the call once `memo` is
false. -/
def isValidListBranch (m : Model) : Bool → List String → Except JsFault Bool
  | memo, [] => .ok memo
  | memo, attr :: rest =>
    if memo then
      match isValidStringBranch m attr with
      | .error e => .error e
      | .ok b => isValidListBranch m (memo && b) rest
    else isValidListBranch m false rest

/-- The argument forms of `mixin.isValid` that the claimed contract covers:
a single attribute path or a list of paths. -/
inductive IsValidArg where
  | strA (s : String)
  | listA (l : List String)

/-- `mixin.isValid(option)` (lines 312-327) for a string or list argument. -/
def mixinIsValid (m : Model) (option : IsValidArg) : Except JsFault Bool :=
  match option with
  | .strA s => isValidStringBranch m s
  | .listA l => isValidListBranch m true l

/-- Whether one flattened pair's attribute chain passes. -/
def attrPasses (m : Model) (computed : JsObj JsValue) (p : String × JsValue) : Bool :=
  match validateAttr m p.1 p.2 computed with
  | .pass => true
  | .fail _ => false

/-- The invalid-map entry contributed by one flattened pair: `none` when its
chain passes, otherwise the attribute with the rejection payload. -/
def attrFailure (m : Model) (computed : JsObj JsValue) (p : String × JsValue) :
    Option (String × Option String) :=
  match validateAttr m p.1 p.2 computed with
  | .pass => none
  | .fail msg => some (p.1, msg)

/-- An entity with no attributes and no rule declaration. -/
def emptyModel : Model :=
  { attributes := [], validation := [], methods := [], isValidState := false }

/-- An entity with `validation: { name: { required: false, pattern: 'email' } }`
and an empty-string `name`; the `email` pattern is externally given by its
matcher `f` (never consulted on an empty value). -/
def c1model (f : String → Bool) : Model :=
  { attributes := [("name", .vstr "")]
    validation := [("name", .avObj
      { rules := [.required (.rBool false), .pattern (.otherP f)], msg := none })]
    methods := []
    isValidState := false }

/-- The spec scenario `{ age: { required: true, min: 18 } }` with `age: 15`. -/
def c2model : Model :=
  { attributes := [("age", .vnum 15)]
    validation := [("age", .avObj
      { rules := [.required (.rBool true), .min 18], msg := none })]
    methods := []
    isValidState := false }

/-- An entity with a failing required field `name` (empty string), the
declaration carrying `msg` as its custom message. -/
def c5model (msg : Option String) : Model :=
  { attributes := [("name", .vstr "")]
    validation := [("name", .avObj
      { rules := [.required (.rBool true)], msg := msg })]
    methods := []
    isValidState := false }

/-- An entity whose stored `password`/`confirm` hold arbitrary stale values
while `confirm` is declared `equalTo: 'password'`. -/
def c7model (old1 old2 : JsValue) : Model :=
  { attributes := [("password", old1), ("confirm", old2)]
    validation := [("confirm", .avObj
      { rules := [.equalTo "password"], msg := none })]
    methods := []
    isValidState := false }

/-- Witness descriptor: `required: true` with no custom message. -/
def w4d1 : Descriptor := { decl := .required (.rBool true), msg := none }

/-- Witness descriptor: `min: 18` with custom message. -/
def w4d2 : Descriptor := { decl := .min 18, msg := some "too small" }

/-- Witness descriptor: `max: 99`, placed after the failing one. -/
def w4d3 : Descriptor := { decl := .max 99, msg := none }

/-- Witness descriptor: an undeclared validator kind with a configured
message. -/
def w8d : Descriptor := { decl := .unknown "asyncCheck", msg := some "check failed" }

/-- One step of the invalid-map accumulation performed by `invokeModel`'s
reject handler (lines 259-262): a passing chain leaves the map alone, a
failing chain records the rejection payload under the attribute. -/
def recordFailure (m : Model) (computed : JsObj JsValue)
    (acc : JsObj (Option String)) (p : String × JsValue) : JsObj (Option String) :=
  match validateAttr m p.1 p.2 computed with
  | .pass => acc
  | .fail msg => objSet acc p.1 msg

theorem objSet_keys {α : Type} (o : JsObj α) (k : String) (v : α) :
    (objSet o k v).map Prod.fst =
      if k ∈ o.map Prod.fst then o.map Prod.fst else o.map Prod.fst ++ [k] := by
  induction o with
  | nil => simp [objSet]
  | cons kv rest ih =>
    obtain ⟨k2, v2⟩ := kv
    by_cases h : k2 = k
    · subst h
      simp [objSet]
    · have hbeq : (k2 == k) = false := by simp [h]
      by_cases hk : k ∈ rest.map Prod.fst <;>
        simp [objSet, hbeq, ih, hk, Ne.symm h]

theorem objSet_keys_nodup {α : Type} (o : JsObj α) (k : String) (v : α)
    (h : (o.map Prod.fst).Nodup) : ((objSet o k v).map Prod.fst).Nodup := by
  rw [objSet_keys]
  split
  · exact h
  · next hk => simp [List.nodup_append, h, hk]

theorem objSet_of_not_mem {α : Type} (o : JsObj α) (k : String) (v : α)
    (h : k ∉ o.map Prod.fst) : objSet o k v = o ++ [(k, v)] := by
  induction o with
  | nil => simp [objSet]
  | cons kv rest ih =>
    obtain ⟨k2, v2⟩ := kv
    simp only [List.map_cons, List.mem_cons, not_or] at h
    have hbeq : (k2 == k) = false := by simp [Ne.symm h.1]
    simp [objSet, hbeq, ih h.2]

mutual
theorem flattenFields_keys_nodup (pre : String) (into : JsObj JsValue)
    (fs : JsFields) (h : (into.map Prod.fst).Nodup) :
    ((flattenFields pre into fs).map Prod.fst).Nodup :=
  match fs with
  | .fnil => h
  | .fcons key val rest =>
    flattenFields_keys_nodup pre (flattenEntry pre into key val) rest
      (flattenEntry_keys_nodup pre into key val h)

theorem flattenEntry_keys_nodup (pre : String) (into : JsObj JsValue)
    (key : String) (v : JsValue) (h : (into.map Prod.fst).Nodup) :
    ((flattenEntry pre into key v).map Prod.fst).Nodup :=
  match v with
  | .vobj fields => flattenFields_keys_nodup (pre ++ key ++ ".") into fields h
  | .vnull => objSet_keys_nodup into (pre ++ key) .vnull h
  | .vundef => objSet_keys_nodup into (pre ++ key) .vundef h
  | .vstr s => objSet_keys_nodup into (pre ++ key) (.vstr s) h
  | .vnum q => objSet_keys_nodup into (pre ++ key) (.vnum q) h
  | .vbool b => objSet_keys_nodup into (pre ++ key) (.vbool b) h
  | .vatomic i => objSet_keys_nodup into (pre ++ key) (.vatomic i) h
end

theorem flattenL_keys_nodup (pre : String) (l : List (String × JsValue)) :
    ∀ (into : JsObj JsValue), (into.map Prod.fst).Nodup →
      ((flattenL pre into l).map Prod.fst).Nodup := by
  induction l with
  | nil => intro into h; exact h
  | cons kv rest ih =>
    intro into h
    obtain ⟨key, val⟩ := kv
    exact ih (flattenEntry pre into key val)
      (flattenEntry_keys_nodup pre into key val h)

theorem flattenTop_keys_nodup (attrs : List (String × JsValue)) :
    ((flattenTop attrs).map Prod.fst).Nodup :=
  flattenL_keys_nodup "" attrs [] (by simp)

theorem invokeModel_eq_foldl (m : Model) (computed : JsObj JsValue) :
    ∀ (rest : List (String × JsValue)) (p : String × JsValue)
      (inv : JsObj (Option String)) (valid : Bool),
      invokeModel m computed p rest inv valid =
        { invalidAttrs := (p :: rest).foldl (recordFailure m computed) inv,
          isValid := valid && (p :: rest).all (attrPasses m computed) } := by
  intro rest
  induction rest with
  | nil =>
    intro p inv valid
    obtain ⟨attr, value⟩ := p
    cases hv : validateAttr m attr value computed <;>
      simp [invokeModel, recordFailure, attrPasses, hv]
  | cons q rest2 ih =>
    intro p inv valid
    obtain ⟨attr, value⟩ := p
    cases hv : validateAttr m attr value computed <;>
      simp [invokeModel, recordFailure, attrPasses, hv, ih]

theorem attrFailure_eq_none_iff (m : Model) (computed : JsObj JsValue)
    (p : String × JsValue) :
    attrFailure m computed p = none ↔ attrPasses m computed p = true := by
  cases hv : validateAttr m p.1 p.2 computed <;>
    simp [attrFailure, attrPasses, hv]

theorem foldl_recordFailure_eq (m : Model) (computed : JsObj JsValue) :
    ∀ (pairs : List (String × JsValue)) (inv : JsObj (Option String)),
      (∀ k ∈ pairs.map Prod.fst, k ∉ inv.map Prod.fst) →
      (pairs.map Prod.fst).Nodup →
      pairs.foldl (recordFailure m computed) inv =
        inv ++ pairs.filterMap (attrFailure m computed) := by
  intro pairs
  induction pairs with
  | nil => intro inv _ _; simp
  | cons p rest ih =>
    intro inv hfresh hnd
    obtain ⟨attr, value⟩ := p
    simp only [List.map_cons, List.nodup_cons] at hnd
    cases hv : validateAttr m attr value computed with
    | pass =>
      have hstep : recordFailure m computed inv (attr, value) = inv := by
        simp [recordFailure, hv]
      have haf : attrFailure m computed (attr, value) = none := by
        simp [attrFailure, hv]
      rw [List.foldl_cons, hstep, List.filterMap_cons, haf]
      exact ih inv (fun k hk => hfresh k (by simp [hk])) hnd.2
    | fail msg =>
      have hnotin : attr ∉ inv.map Prod.fst := hfresh attr (by simp)
      have hstep : recordFailure m computed inv (attr, value) =
          inv ++ [(attr, msg)] := by
        simp [recordFailure, hv, objSet_of_not_mem inv attr msg hnotin]
      have haf : attrFailure m computed (attr, value) = some (attr, msg) := by
        simp [attrFailure, hv]
      have hfresh2 : ∀ k ∈ rest.map Prod.fst,
          k ∉ (inv ++ [(attr, msg)]).map Prod.fst := by
        intro k hk
        simp only [List.map_append, List.mem_append, List.map_cons, List.map_nil,
          List.mem_singleton, not_or]
        constructor
        · exact hfresh k (by simp [hk])
        · intro hcon
          subst hcon
          exact hnd.1 hk
      rw [List.foldl_cons, hstep, List.filterMap_cons, haf,
        ih (inv ++ [(attr, msg)]) hfresh2 hnd.2]
      simp

theorem getValidators_set_isValid (m : Model) (b : Bool) (attr : String) :
    getValidators { m with isValidState := b } attr = getValidators m attr := rfl

theorem getValidatedAttrs_set_isValid (m : Model) (b : Bool) :
    getValidatedAttrs { m with isValidState := b } = getValidatedAttrs m := rfl

theorem allAttrsFor_set_isValid (m : Model) (b : Bool)
    (attrs : Option (JsObj JsValue)) :
    allAttrsFor { m with isValidState := b } attrs = allAttrsFor m attrs := rfl

theorem invokeDescriptor_set_isValid (m : Model) (b : Bool) (attr : String)
    (value : JsValue) (computed : JsObj JsValue) (d : Descriptor) :
    invokeDescriptor { m with isValidState := b } attr value computed d =
      invokeDescriptor m attr value computed d := by
  obtain ⟨decl, msg⟩ := d
  cases decl <;> rfl

theorem runChain_set_isValid (m : Model) (b : Bool) (attr : String)
    (value : JsValue) (computed : JsObj JsValue) (l : List Descriptor) :
    runChain { m with isValidState := b } attr value computed l =
      runChain m attr value computed l := by
  induction l with
  | nil => rfl
  | cons d rest ih =>
    simp only [runChain, invokeDescriptor_set_isValid]
    cases invokeDescriptor m attr value computed d <;> simp [ih]

theorem validateAttr_set_isValid (m : Model) (b : Bool) (attr : String)
    (value : JsValue) (computed : JsObj JsValue) :
    validateAttr { m with isValidState := b } attr value computed =
      validateAttr m attr value computed := by
  simp only [validateAttr, getValidators_set_isValid, runChain_set_isValid]

theorem invokeModel_set_isValid (m : Model) (b : Bool) (computed : JsObj JsValue) :
    ∀ (rest : List (String × JsValue)) (p : String × JsValue)
      (inv : JsObj (Option String)) (valid : Bool),
      invokeModel { m with isValidState := b } computed p rest inv valid =
        invokeModel m computed p rest inv valid := by
  intro rest
  induction rest with
  | nil =>
    intro p inv valid
    obtain ⟨attr, value⟩ := p
    simp only [invokeModel, validateAttr_set_isValid]
  | cons q rest2 ih =>
    intro p inv valid
    obtain ⟨attr, value⟩ := p
    simp only [invokeModel, validateAttr_set_isValid]
    cases validateAttr m attr value computed <;> simp [ih]

theorem validateModel_set_isValid (m : Model) (b : Bool) (attrs : JsObj JsValue) :
    validateModel { m with isValidState := b } attrs = validateModel m attrs := by
  simp only [validateModel]
  cases flattenTop attrs <;> simp [invokeModel_set_isValid]

theorem mixinValidate_set_isValid (m : Model) (b : Bool)
    (attrs : Option (JsObj JsValue)) (opt : Options) :
    mixinValidate { m with isValidState := b } attrs opt =
      mixinValidate m attrs opt := by
  simp only [mixinValidate, getValidatedAttrs_set_isValid, allAttrsFor_set_isValid,
    validateModel_set_isValid]

/-- Claim C1 (code bug, claim refuted by the code): with
`validation: { name: { required: false, pattern: 'email' } }` and an empty
string `name`, the claimed override — a non-required empty attribute passes
regardless of other descriptors — does not happen.  The `required` validator
only resolves its own step (line 629), so the chain continues into
`pattern`, which rejects the empty value, and the full run records `name`
invalid (with the absent custom message, i.e. `undefined`) and leaves the
caller's deferred pending — whatever the external `email` matcher `f` is.
The source's own comment "overrides all other validators" (line 629)
promises the opposite. -/
theorem required_override_broken (f : String → Bool) :
    validateAttr (c1model f) "name" (.vstr "") [("name", .vstr "")] = .fail none ∧
    mixinValidate (c1model f) none { forceUpdate := false } =
      some { validCalls := [], invalidCalls := [("name", none)],
             handlerReturn := some [("name", none)], outcome := .pendingD,
             newIsValid := false } := ⟨rfl, rfl⟩

/-- Claim C2 (code bug, claim refuted by the code): for the scenario
`{ age: { required: true, min: 18 } }` with `age: 15` the run settles
invalid, but the invalid-attribute map records `undefined` for `age` — the
declaration's absent `msg`, which `invokeValidator` passes to the master
deferred's rejection (line 172) — not the parametrized default message.
The second conjunct shows the default message the `min` validator does
compute (line 653), only for the chain to discard it. -/
theorem min_failure_records_undefined_message :
    validateModel c2model [("age", .vnum 15)] =
      some { invalidAttrs := [("age", none)], isValid := false } ∧
    format defaultMessages.min [formatLabel "age" c2model, ratToString 18] =
      "Age must be greater than or equal to 18" := ⟨rfl, rfl⟩

/-- Claim C3 (amended): for every run whose flattened attribute set is
nonempty, `validateModel` settles (never short-circuiting across
attributes) with exactly one outcome per flattened pair, in order: the
invalid map is the in-order collection of the failing chains' entries, and
the validity flag is the conjunction of all chains — true exactly when the
map is empty.  (The unamended claim also covered the empty set, where the
runner faults instead of settling: see the counterexample and C10.) -/
theorem validateModel_settles_every_attribute (m : Model) (attrs : JsObj JsValue)
    (h : flattenTop attrs ≠ []) :
    validateModel m attrs =
      some { invalidAttrs := (flattenTop attrs).filterMap (attrFailure m attrs),
             isValid := (flattenTop attrs).all (attrPasses m attrs) } ∧
    ((flattenTop attrs).all (attrPasses m attrs) = true ↔
      (flattenTop attrs).filterMap (attrFailure m attrs) = []) := by
  constructor
  · cases hEq : flattenTop attrs with
    | nil => exact absurd hEq h
    | cons p rest =>
      have hnd : ((flattenTop attrs).map Prod.fst).Nodup := flattenTop_keys_nodup attrs
      rw [hEq] at hnd
      have hrun := invokeModel_eq_foldl m attrs rest p [] true
      have hfold := foldl_recordFailure_eq m attrs (p :: rest) [] (by simp) hnd
      simp only [validateModel, hEq, hrun, hfold]
      simp [hEq]
  · rw [List.all_eq_true, List.filterMap_eq_nil_iff]
    constructor
    · intro hall q hq
      exact (attrFailure_eq_none_iff m attrs q).mpr (hall q hq)
    · intro hnone q hq
      exact (attrFailure_eq_none_iff m attrs q).mp (hnone q hq)

/-- Claim C3, counterexample to the unamended claim: a run over an entity
with no attributes and no rules has an empty flattened set, and the runner
raises a synchronous fault (`none`) instead of settling `{ invalidAttrs,
isValid }`. -/
theorem validateModel_empty_set_faults : validateModel emptyModel [] = none := rfl

/-- Witness for the amended C3 theorem at a concrete failing input. -/
theorem validateModel_settles_every_attribute_witness :
    validateModel (c5model (some "msg")) [("name", JsValue.vstr "")] =
      some { invalidAttrs := [("name", some "msg")], isValid := false } := by
  have h := validateModel_settles_every_attribute (c5model (some "msg"))
    [("name", JsValue.vstr "")] (by decide)
  exact h.1.trans (by decide)

/-- Claim C4: within one attribute the descriptors are driven strictly in
declaration order and the chain short-circuits at the first failing
descriptor: if every descriptor of `ds1` resolves and `d` does not, the
invocation trace is exactly `ds1 ++ [d]` — each invoked once, in order,
and no descriptor of `ds2` is ever invoked — and the chain rejects with
`d`'s configured message. -/
theorem chain_descriptors_in_order_and_short_circuit (m : Model) (attr : String)
    (value : JsValue) (computed : JsObj JsValue) (ds1 : List Descriptor)
    (d : Descriptor) (ds2 : List Descriptor)
    (h1 : ∀ e ∈ ds1, invokeDescriptor m attr value computed e = .resolve)
    (h2 : invokeDescriptor m attr value computed d ≠ .resolve) :
    runChainTrace m attr value computed (ds1 ++ d :: ds2) = (.fail d.msg, ds1 ++ [d]) ∧
    runChain m attr value computed (ds1 ++ d :: ds2) = .fail d.msg := by
  induction ds1 with
  | nil =>
    cases hv : invokeDescriptor m attr value computed d with
    | resolve => exact absurd hv h2
    | reject msg => simp [runChainTrace, runChain, hv]
    | vthrow => simp [runChainTrace, runChain, hv]
  | cons e es ih =>
    have he : invokeDescriptor m attr value computed e = .resolve := h1 e (by simp)
    have ih2 := ih (fun x hx => h1 x (by simp [hx]))
    simp [runChainTrace, runChain, he, ih2.1, ih2.2]

/-- Witness for C4: `required: true` resolves on `15`, `min: 18` fails, and
the `max: 99` descriptor after it is never invoked. -/
theorem chain_order_witness :
    runChainTrace emptyModel "age" (.vnum 15) [] [w4d1, w4d2, w4d3] =
      (.fail (some "too small"), [w4d1, w4d2]) ∧
    runChain emptyModel "age" (.vnum 15) [] [w4d1, w4d2, w4d3] =
      .fail (some "too small") := by
  have h := chain_descriptors_in_order_and_short_circuit emptyModel "age"
    (.vnum 15) [] [w4d1] w4d2 [w4d3] (by decide) (by decide)
  exact h

/-- Claim C5, counterexample: with `forceUpdate: true` and a failing
required field, `validate()`'s suspending result is rejected — a rejection
is delivered to the caller, contradicting "resolves as accepted" — even
though the invalid callback did fire. -/
theorem forceUpdate_still_rejects :
    (mixinValidate (c5model none) none { forceUpdate := true }).map
        ValidateOut.outcome = some .rejectedD ∧
    (mixinValidate (c5model none) none { forceUpdate := true }).map
        ValidateOut.invalidCalls = some [("name", none)] := ⟨rfl, rfl⟩

/-- Claim C5 (amended): with `forceUpdate: true` and a failing required
field, `validate()` still fires the invalid callback, and the flag
suppresses the early return of the invalid-attribute map into the internal
promise chain (line 377-379) — but the suspending result handed to the
caller is rejected, because it tracks `model._isValid` regardless of
`forceUpdate` (lines 381-385). -/
theorem forceUpdate_fires_invalid_but_rejects (msg : Option String) :
    mixinValidate (c5model msg) none { forceUpdate := true } =
      some { validCalls := [], invalidCalls := [("name", msg)],
             handlerReturn := none, outcome := .rejectedD,
             newIsValid := false } := rfl

/-- Claim C6 (code bug, claim refuted by the code): `isValid('path')` (and
`isValid([paths])` on a nonempty list) never returns a boolean snapshot.
The call `validateAttr(this, option, flattened[option],
_.extend({}, this.attributes))` at line 316 supplies four arguments to the
five-parameter `validateAttr`, shifting every parameter: the model lands in
the `masterDeferred` slot and the path string in the `model` slot.  The
string yields no validators, so the code calls `this.resolve()` — which
does not exist on the model — and a synchronous TypeError escapes to the
caller. -/
theorem isValid_string_faults (m : Model) (s a : String) (l : List String) :
    mixinIsValid m (.strA s) = .error .typeError ∧
    mixinIsValid m (.listA (a :: l)) = .error .typeError := ⟨rfl, rfl⟩

/-- Claim C7: validating the partial change
`{ password: 'a', confirm: 'a' }` together passes, whatever stale values
the entity's stored attributes held: the `equalTo` comparison reads the
proposed merged attribute set (`computed`, cloned from `allAttrs` at line
218), not the pre-run stored values. -/
theorem equalTo_uses_proposed_values (old1 old2 : JsValue) :
    mixinValidate (c7model old1 old2)
      (some [("password", .vstr "a"), ("confirm", .vstr "a")])
      { forceUpdate := false } =
    some { validCalls := ["confirm"], invalidCalls := [], handlerReturn := none,
           outcome := .resolvedD, newIsValid := true } := rfl

/-- Claim C8: when invoking a descriptor raises a synchronous fault before
settling its step (as an undeclared validator kind does: the lookup yields
no callable), the try/catch at lines 186-193 converts it into a rejection
of the attribute chain carrying the descriptor's configured message; the
chain settles — no exception propagates — and nothing after the faulting
descriptor is invoked. -/
theorem sync_fault_settles_chain (m : Model) (attr : String) (value : JsValue)
    (computed : JsObj JsValue) (d : Descriptor) (rest : List Descriptor)
    (h : invokeDescriptor m attr value computed d = .vthrow) :
    runChain m attr value computed (d :: rest) = .fail d.msg ∧
    runChainTrace m attr value computed (d :: rest) = (.fail d.msg, [d]) := by
  simp [runChain, runChainTrace, h]

/-- Witness for C8: the unknown validator kind `asyncCheck` faults and the
chain settles with its configured message. -/
theorem sync_fault_settles_chain_witness :
    runChain emptyModel "code" (.vstr "x") [] [w8d, w4d3] =
      .fail (some "check failed") ∧
    runChainTrace emptyModel "code" (.vstr "x") [] [w8d, w4d3] =
      (.fail (some "check failed"), [w8d]) :=
  sync_fault_settles_chain emptyModel "code" (.vstr "x") [] w8d [w4d3] (by decide)

/-- Claim C9: validation is idempotent across runs.  The only entity state a
run writes is `model._isValid` (line 344), and no part of the pipeline reads
it, so running `validate()` again on the post-run model — with unchanged
attributes, rules and options — produces the identical `validateModel`
settlement (same `invalidAttrs`, same `isValid`) and the identical
observable `validate()` outcome. -/
theorem validate_idempotent (m : Model) (opt : Options) :
    mixinValidate (modelAfterValidate m none opt) none opt =
      mixinValidate m none opt ∧
    validateModel (modelAfterValidate m none opt)
        (allAttrsFor (modelAfterValidate m none opt) none) =
      validateModel m (allAttrsFor m none) := by
  unfold modelAfterValidate
  cases h : mixinValidate m none opt with
  | none => exact ⟨h, rfl⟩
  | some out =>
    constructor
    · rw [mixinValidate_set_isValid]
      exact h
    · rw [allAttrsFor_set_isValid]
      exact validateModel_set_isValid m out.newIsValid (allAttrsFor m none)

/-- Claim C10: an entity with no attributes and no declared rules flattens
to an empty work queue; `invokeModel(pairs.shift())` then dereferences
`undefined` (line 225), so `validateModel` — and hence `validate()` —
raises a synchronous fault instead of settling as vacuously valid. -/
theorem empty_run_raises (opt : Options) :
    mixinValidate emptyModel none opt = none ∧
    validateModel emptyModel (allAttrsFor emptyModel none) = none := ⟨rfl, rfl⟩
